import Mathlib

/-!
Verification of op-node-raft: the `raft` command and its request handler.

A shallow embedding of `internal/cmd/raft.go` and `internal/cmd/root.go`:

* the package-level variables `proxy` and `proxyLock`, with Go's `sync.RWMutex`
  modelled by its counters (`readerCount`, `readerWait`, the writer mutex and the
  two semaphores);
* the HTTP handler registered for `"/"`, as a function from the globals to the
  ordered list of calls it makes, the way it ends, and the globals it leaves;
* `RunE` of `raftCmd`, as a function of the flags and of the results of the
  library calls it makes;
* the `raft.Configuration` built from the join list;
* the consensus engine behind `raft.NewRaft`, which is a library and not part of
  the repository: its election protocol is modelled from the specification
  (namespace `Engine`).

Library code (`sync`, `strconv`, `fmt`, `lo`, `net/http`, `hashicorp/raft`) is not
part of the repository; the few functions the command relies on are modelled
from their Go definitions and named after them.
-/

namespace RaftProxy

/-! ## Go's `sync.RWMutex` -/

/-- The constant `rwmutexMaxReaders = 1 << 30` of package `sync`. -/
def rwmutexMaxReaders : Int := 1073741824

/-- The fields of a `sync.RWMutex`. `w` is the inner writer mutex (held or not),
the semaphores are counted, and the zero value is the unlocked mutex. The
counters are `int32` in Go; no state considered here comes near its range. -/
structure RWMutex where
  w : Bool := false
  writerSem : Nat := 0
  readerSem : Nat := 0
  readerCount : Int := 0
  readerWait : Int := 0
  deriving DecidableEq, Repr

/-- How a call ends for the goroutine that makes it. -/
inductive Outcome where
  /-- The call returned to its caller. -/
  | returned
  /-- The goroutine parked on a mutex or semaphore: the call has not returned. -/
  | blocked
  /-- The runtime raised `fatal(msg)`: the whole process exits, no recovery. -/
  | fatal (msg : String)
  deriving DecidableEq, Repr

namespace RWMutex

/-- `func (rw *RWMutex) Lock()`: take `rw.w`, subtract `rwmutexMaxReaders` from
`readerCount`, and wait on `writerSem` while readers are still active. -/
def Lock (rw : RWMutex) : Outcome × RWMutex :=
  if rw.w then (Outcome.blocked, rw)
  else
    let rw1 := { rw with w := true }
    let r := rw1.readerCount
    let rw2 := { rw1 with readerCount := rw1.readerCount - rwmutexMaxReaders }
    if r ≠ 0 then
      let rw3 := { rw2 with readerWait := rw2.readerWait + r }
      if rw3.readerWait ≠ 0 then
        if 0 < rw3.writerSem then
          (Outcome.returned, { rw3 with writerSem := rw3.writerSem - 1 })
        else (Outcome.blocked, rw3)
      else (Outcome.returned, rw3)
    else (Outcome.returned, rw2)

/-- `func (rw *RWMutex) Unlock()`: add `rwmutexMaxReaders` back; a result of at
least `rwmutexMaxReaders` is the misuse fault; otherwise wake the `r` blocked
readers and release `rw.w`. -/
def Unlock (rw : RWMutex) : Outcome × RWMutex :=
  let r := rw.readerCount + rwmutexMaxReaders
  let rw1 := { rw with readerCount := r }
  if rwmutexMaxReaders ≤ r then
    (Outcome.fatal "sync: Unlock of unlocked RWMutex", rw1)
  else
    (Outcome.returned, { rw1 with readerSem := rw1.readerSem + r.toNat, w := false })

/-- `func (rw *RWMutex) RLock()`: add one to `readerCount`; a negative result
means a writer holds or awaits the lock, and the reader waits on `readerSem`. -/
def RLock (rw : RWMutex) : Outcome × RWMutex :=
  let rw1 := { rw with readerCount := rw.readerCount + 1 }
  if rw1.readerCount < 0 then
    if 0 < rw1.readerSem then
      (Outcome.returned, { rw1 with readerSem := rw1.readerSem - 1 })
    else (Outcome.blocked, rw1)
  else (Outcome.returned, rw1)

/-- `func (rw *RWMutex) RUnlock()` with `rUnlockSlow` inlined: subtract one from
`readerCount`; if the result `r` is negative then `r+1 == 0` or
`r+1 == -rwmutexMaxReaders` is the misuse fault, and otherwise the last
departing reader wakes the pending writer. -/
def RUnlock (rw : RWMutex) : Outcome × RWMutex :=
  let r := rw.readerCount - 1
  let rw1 := { rw with readerCount := r }
  if r < 0 then
    if r + 1 = 0 ∨ r + 1 = -rwmutexMaxReaders then
      (Outcome.fatal "sync: RUnlock of unlocked RWMutex", rw1)
    else
      let rw2 := { rw1 with readerWait := rw1.readerWait - 1 }
      if rw2.readerWait = 0 then
        (Outcome.returned, { rw2 with writerSem := rw2.writerSem + 1 })
      else (Outcome.returned, rw2)
  else (Outcome.returned, rw1)

end RWMutex

/-! ## Package-level state of `internal/cmd/raft.go` -/

/-- An `*http.Request` as far as forwarding is concerned. -/
structure Request where
  method : String
  url : String
  header : List (String × String)
  body : String
  deriving DecidableEq, Repr

/-- A `*httputil.ReverseProxy`, identified by the address it forwards to. -/
structure ReverseProxy where
  target : String
  deriving DecidableEq, Repr

/-- The variables `proxy` and `proxyLock` (`var (...)` block, lines 33-34).
`proxy = none` is the nil pointer. -/
structure Globals where
  proxy : Option ReverseProxy := none
  proxyLock : RWMutex := {}
  deriving DecidableEq, Repr

/-- The constant `http.StatusServiceUnavailable`. -/
def StatusServiceUnavailable : Nat := 503

/-- A call made by the handler, in program order. -/
inductive Call where
  /-- The call `proxyLock.Lock()`. -/
  | Lock
  /-- The call `proxyLock.RLock()`. -/
  | RLock
  /-- The call `proxyLock.Unlock()`. -/
  | Unlock
  /-- The call `proxyLock.RUnlock()`. -/
  | RUnlock
  /-- The call `p.ServeHTTP(writer, request)`: the request is forwarded to `p`. -/
  | ServeHTTP (p : ReverseProxy) (request : Request)
  /-- The call `http.Error(writer, msg, code)`. -/
  | Error (msg : String) (code : Nat)
  deriving DecidableEq, Repr

/-- One run of the handler: the calls made, how the run ended, the globals left. -/
structure HandlerRun where
  calls : List Call
  outcome : Outcome
  globals : Globals
  deriving DecidableEq, Repr

/-- The body between the acquisition and the deferred release (lines 81-85):
`if proxy != nil { proxy.ServeHTTP(writer, request) } else { http.Error(...) }`. -/
def handlerBody (request : Request) (proxy : Option ReverseProxy) : List Call :=
  match proxy with
  | some p => [Call.ServeHTTP p request]
  | none => [Call.Error "Service Unavailable" StatusServiceUnavailable]

/-- The function registered by `http.HandleFunc("/", ...)` (lines 78-86):
`proxyLock.Lock()`, `defer proxyLock.RUnlock()`, the body, and the deferred call
on the way out. -/
def handler (request : Request) (g : Globals) : HandlerRun :=
  match g.proxyLock.Lock with
  | (Outcome.returned, l1) =>
    let body := handlerBody request g.proxy
    match l1.RUnlock with
    | (o, l2) =>
      { calls := Call.Lock :: body ++ [Call.RUnlock], outcome := o,
        globals := { g with proxyLock := l2 } }
  | (o, l1) =>
    { calls := [Call.Lock], outcome := o, globals := { g with proxyLock := l1 } }

/-- Whether a call forwards a request. -/
def Call.isForward : Call → Bool
  | Call.ServeHTTP _ _ => true
  | _ => false

/-- Whether a call writes an error response with the given status. -/
def Call.isError (code : Nat) : Call → Bool
  | Call.Error _ c => c == code
  | _ => false

/-- Whether a call acquires `proxyLock`, in either mode. -/
def Call.isAcquire : Call → Bool
  | Call.Lock => true
  | Call.RLock => true
  | _ => false

/-! ## Library functions used to build the configuration -/

/-- Decimal rendering of an unsigned number, as `%d` and `strconv` print it:
most significant digit first, no sign, no padding, `"0"` for zero. -/
def decimal (n : Nat) : String := String.mk (Nat.toDigits 10 n)

/-- `strconv.Itoa(i)`: the decimal rendering of `i`, with a leading `-` when
`i` is negative. -/
def Itoa (i : Int) : String :=
  if i < 0 then "-" ++ decimal i.natAbs else decimal i.toNat

/-- `fmt.Sprintf("%s:%d", s, n)` for a string `s` and an unsigned `n`. -/
def Sprintf_s_colon_d (s : String) (n : Nat) : String := s ++ ":" ++ decimal n

/-- The loop of `lo.Map`: `result[i] = iteratee(collection[i], i)`, from index
`i` on. -/
def loMapFrom {α β : Type} (iteratee : α → Int → β) : Nat → List α → List β
  | _, [] => []
  | i, item :: rest => iteratee item (i : Int) :: loMapFrom iteratee (i + 1) rest

/-- `lo.Map(collection, iteratee)` of `github.com/samber/lo`. -/
def loMap {α β : Type} (collection : List α) (iteratee : α → Int → β) : List β :=
  loMapFrom iteratee 0 collection

/-! ## `raft.Configuration` -/

/-- `raft.ServerSuffrage`; `Voter` is its zero value. -/
inductive ServerSuffrage where
  /-- A server whose vote is counted in elections. -/
  | Voter
  /-- A server that receives log entries but is not counted. -/
  | Nonvoter
  /-- A server that is to be promoted to a voter. -/
  | Staging
  deriving DecidableEq, Repr

/-- `raft.Server`. -/
structure Server where
  Suffrage : ServerSuffrage := ServerSuffrage.Voter
  ID : String
  Address : String
  deriving DecidableEq, Repr

/-- `raft.Configuration`. -/
structure Configuration where
  Servers : List Server
  deriving DecidableEq, Repr

/-- The value `configurations` of lines 67-74: one `raft.Server` per join entry,
with `ID = strconv.Itoa(index + 1)` and
`Address = fmt.Sprintf("%s:%d", item, advertisePort)`. A Go slice has fewer than
`2^63` elements, so `index + 1` does not overflow `int`. -/
def configurations (joinList : List String) (advertisePort : Nat) : Configuration :=
  { Servers := loMap joinList (fun item index =>
      { ID := Itoa (index + 1), Address := Sprintf_s_colon_d item advertisePort }) }

/-! ## `raftCmd.RunE` -/

/-- A Go `error` value, by its message. -/
abbrev Error := String

/-- The flags bound in `init` (lines 92-99), with their defaults. -/
structure Flags where
  nodeID : String := ""
  advertiseHost : String := ""
  advertisePort : Nat := 1111
  joinList : List String := []
  deriving DecidableEq, Repr

/-- The results of the library calls `RunE` makes: for each call, the error it
reports (`none` is `nil`). `BootstrapCluster` gives the error carried by the
`Future` it returns; `ListenAndServe = none` means the server keeps serving. -/
structure Env where
  ResolveTCPAddr : String → Option Error
  NewTCPTransportWithLogger : String → Option Error
  NewRaft : String → Option Error
  BootstrapCluster : Configuration → Option Error
  ListenAndServe : Option Error

/-- The constant `raftLogCacheSize`. -/
def raftLogCacheSize : Int := 512

/-- The error result of `raft.NewLogCache(capacity, store)`: it rejects a
capacity that is not positive. -/
def NewLogCache (capacity : Int) : Option Error :=
  if capacity ≤ 0 then some "capacity must be positive" else none

/-- Where a run of `RunE` stands once it can go no further. -/
inductive RunEnd where
  /-- `RunE` returned this error. -/
  | returned (err : Error)
  /-- `RunE` is inside `http.ListenAndServe`, serving requests. -/
  | serving
  deriving DecidableEq, Repr

/-- What a run of `RunE` did: the argument of `BootstrapCluster` if it was
called, whether `http.HandleFunc("/", ...)` was executed, and how it ended. -/
structure RunResult where
  bootstrapArg : Option Configuration
  handlerInstalled : Bool
  finish : RunEnd
  deriving DecidableEq, Repr

/-- `raftCmd.RunE` (lines 39-89). Each of the first four fallible calls is
followed by `if err != nil { return err }`; the `Future` returned by
`raftServer.BootstrapCluster(configurations)` is discarded (line 76). -/
def RunE (flags : Flags) (env : Env) : RunResult :=
  let raftAddr := Sprintf_s_colon_d flags.advertiseHost flags.advertisePort
  match env.ResolveTCPAddr raftAddr with
  | some err => ⟨none, false, RunEnd.returned err⟩
  | none =>
  match NewLogCache raftLogCacheSize with
  | some err => ⟨none, false, RunEnd.returned err⟩
  | none =>
  match env.NewTCPTransportWithLogger raftAddr with
  | some err => ⟨none, false, RunEnd.returned err⟩
  | none =>
  match env.NewRaft flags.nodeID with
  | some err => ⟨none, false, RunEnd.returned err⟩
  | none =>
  let cfg := configurations flags.joinList flags.advertisePort
  let _future := env.BootstrapCluster cfg
  match env.ListenAndServe with
  | some err => ⟨some cfg, true, RunEnd.returned err⟩
  | none => ⟨some cfg, true, RunEnd.serving⟩

/-! ## The running process -/

/-- An environment in which every library call succeeds, except that
`BootstrapCluster` reports an error for a configuration without servers, as the
library does (the local node is not among its voters: `node is not a voter`). -/
def noVoterEnv : Env :=
  { ResolveTCPAddr := fun _ => none, NewTCPTransportWithLogger := fun _ => none,
    NewRaft := fun _ => none,
    BootstrapCluster := fun cfg =>
      if cfg.Servers.isEmpty then some "node is not a voter" else none,
    ListenAndServe := none }

/-- A leadership change reported by the consensus engine: the term and the id
of the leader, `none` when no leader is known. -/
structure LeadershipEvent where
  term : Nat
  leader : Option String
  deriving DecidableEq, Repr

/-- What the program does with its globals when the engine reports a
leadership change. `RunE` leaves `config.NotifyCh` at the nil default of
`raft.DefaultConfig()`, registers no observer, never reads `LeaderCh()`, and no
statement of the package assigns `proxy`: no code of the program runs. -/
def onLeadershipEvent (_e : LeadershipEvent) (g : Globals) : Globals := g

/-- Something that happens to the running process. -/
inductive Event where
  /-- An inbound HTTP request reaches the handler. -/
  | request (r : Request)
  /-- The consensus engine reports a leadership change. -/
  | leadership (e : LeadershipEvent)
  deriving DecidableEq, Repr

/-- The process: whether it is serving requests, its globals, and the handler
runs so far with the request of each (oldest first). -/
structure Process where
  serving : Bool
  globals : Globals
  handled : List (Request × HandlerRun)
  deriving DecidableEq, Repr

/-- The commands of the program: `rootCmd` of `root.go` and `raftCmd`, which
`init` of `root.go` adds to it. -/
inductive Command where
  /-- The program is run without subcommand: `rootCmd.RunE`. -/
  | root
  /-- The program is run as `raft-proxy raft ...`: `raftCmd.RunE`. -/
  | raft
  deriving DecidableEq, Repr

/-- `rootCmd.RunE` (`root.go`, lines 10-12): `return nil`. -/
def rootRunE : Option Error := none

/-- Program start: the globals have their zero values, then `Execute` runs the
selected command. `rootCmd.RunE` returns at once, so no request is ever served;
`raftCmd.RunE` serves if it gets as far as `http.ListenAndServe`. -/
def boot (cmd : Command) (flags : Flags) (env : Env) : Process :=
  match cmd with
  | Command.root => { serving := false, globals := {}, handled := [] }
  | Command.raft =>
    { serving := (RunE flags env).finish == RunEnd.serving, globals := {}, handled := [] }

/-- One event. A request is handled only while the process serves; a handler
run that ends in a fatal error ends the process. Requests are handled one
after the other. -/
def step (p : Process) : Event → Process
  | Event.request r =>
    if p.serving then
      let h := handler r p.globals
      { serving := h.outcome == Outcome.returned || h.outcome == Outcome.blocked,
        globals := h.globals, handled := p.handled ++ [(r, h)] }
    else p
  | Event.leadership e =>
    if p.serving then { p with globals := onLeadershipEvent e p.globals } else p

/-- A sequence of events, from the left. -/
def run (p : Process) (events : List Event) : Process := events.foldl step p

/-- The target the specification assigns after a leadership event: the local
address when the local node leads, the address the configuration gives for a
remote leader's id, and none when no leader is known. -/
def specProxyTarget (localID localAddr : String) (cfg : Configuration)
    (e : LeadershipEvent) : Option ReverseProxy :=
  match e.leader with
  | none => none
  | some id =>
    if id = localID then some ⟨localAddr⟩
    else (cfg.Servers.find? (fun s => s.ID == id)).map (fun s => ⟨s.Address⟩)

/-! ## Auxiliary definitions for the proofs -/

/-- Reading a digit string back: left fold of `10 * a + digit`. -/
def readDecimal (cs : List Char) : Nat := cs.foldl (fun a c => 10 * a + (c.toNat - 48)) 0

/-- The invariant of the running process: `proxy` is nil, the lock is unlocked
as long as the process serves, and every handler run so far answered 503. -/
def ProcessInv (p : Process) : Prop :=
  p.globals.proxy = none ∧ (p.serving = true → p.globals.proxyLock = {}) ∧
    ∀ rh ∈ p.handled, rh.2.calls =
      [Call.Lock, Call.Error "Service Unavailable" 503, Call.RUnlock]

end RaftProxy

/-! ## The consensus engine (election)

`raft.NewRaft` hands leader election to the `hashicorp/raft` library, which is
not part of the repository. The definitions of this namespace are modelled from
the specification (sections 3, 4.3, 6 and 7): terms, votes, roles, the two RPCs
and their handling. Commit indices play no part in an election and are left
out; the leader's per-follower `next index` is covered by letting a leader send
`AppendEntries` from any prefix of its log. Nodes are named by their position in
the ClusterConfiguration. -/

namespace Engine

/-- Modelled from the spec: the engine's `Role`, one of Follower, Candidate,
Leader (section 3). -/
inductive Role where
  /-- Follows a leader, or waits for one. -/
  | Follower
  /-- Stands for election in its current term. -/
  | Candidate
  /-- Believes itself leader for its current term. -/
  | Leader
  deriving DecidableEq, Repr

/-- Modelled from the spec: the engine's `LogEntry` (section 3); the index of an
entry is its 1-based position in the log. -/
structure LogEntry where
  term : Nat
  command : String
  deriving DecidableEq, Repr

/-- Modelled from the spec: the engine state of one node, that is the
PersistentState `currentTerm`, `votedFor`, `log` (section 3), the role, and the
ids of the nodes whose grant for the current term has been received. The
default value is the state of a node that starts: Follower, term zero. -/
structure Node where
  currentTerm : Nat := 0
  votedFor : Option Nat := none
  log : List LogEntry := []
  role : Role := Role.Follower
  votes : List Nat := []
  deriving DecidableEq, Repr

/-- Modelled from the spec: the engine's RPC wire contract (section 6), each
message with its sender `src` and receiver `dst`. -/
inductive Message where
  /-- RequestVote request; the candidate is `src`. -/
  | RequestVote (src dst term lastLogIndex lastLogTerm : Nat)
  /-- RequestVote response. -/
  | RequestVoteReply (src dst term : Nat) (voteGranted : Bool)
  /-- AppendEntries request; the leader is `src`; a heartbeat has no entries. -/
  | AppendEntries (src dst term prevLogIndex prevLogTerm : Nat) (entries : List LogEntry)
  /-- AppendEntries response. -/
  | AppendEntriesReply (src dst term : Nat) (success : Bool)
  deriving DecidableEq, Repr

/-- The receiver of a message. -/
def Message.dst : Message → Nat
  | Message.RequestVote _ d _ _ _ => d
  | Message.RequestVoteReply _ d _ _ => d
  | Message.AppendEntries _ d _ _ _ _ => d
  | Message.AppendEntriesReply _ d _ _ => d

/-- Modelled from the spec: the engine's last log index (`lastIndex()` of the
LogStore, section 4.1), 0 for the empty log. -/
def lastLogIndex (log : List LogEntry) : Nat := log.length

/-- Modelled from the spec: the engine's lookup of the term of the entry at a
1-based index (`get(index)` of the LogStore), 0 when there is none. -/
def termAt (log : List LogEntry) (index : Nat) : Nat :=
  if index = 0 then 0 else
    match log[index - 1]? with
    | some e => e.term
    | none => 0

/-- Modelled from the spec: the term of the engine's last log entry, 0 for the
empty log. -/
def lastLogTerm (log : List LogEntry) : Nat := termAt log log.length

/-- Modelled from the spec: the engine's test (c) of RequestVote handling, whether
the candidate's log, ending in `(candTerm, candIndex)`, is at least as
up-to-date as `log`: higher last term wins, a tie is broken by higher index. -/
def upToDate (candTerm candIndex : Nat) (log : List LogEntry) : Bool :=
  decide (lastLogTerm log < candTerm) ||
    (candTerm == lastLogTerm log && decide (lastLogIndex log ≤ candIndex))

/-- Modelled from the spec: the engine's term handling (section 4.3). A message
revealing a higher term makes the node adopt it, clear `votedFor` and step down
to Follower. -/
def observeTerm (st : Node) (term : Nat) : Node :=
  if st.currentTerm < term then
    { st with currentTerm := term, votedFor := none, role := Role.Follower }
  else st

/-- The configured nodes other than `n`. -/
def others (N n : Nat) : List Nat := (List.range N).filter (fun d => d ≠ n)

/-- Modelled from the spec: the engine's AppendEntries request from leader `n`
to `d` carrying the log suffix after `prevLogIndex` (section 4.3, Replication). -/
def appendEntriesFor (n : Nat) (st : Node) (d prevLogIndex : Nat) : Message :=
  Message.AppendEntries n d st.currentTerm prevLogIndex (termAt st.log prevLogIndex)
    (st.log.drop prevLogIndex)

/-- Modelled from the spec: the engine's rule that a Candidate holding grants
from a strict majority `N / 2 + 1` of the `N` configured nodes becomes Leader
and immediately sends heartbeats. -/
def tally (N n : Nat) (st : Node) : Node × List Message :=
  if st.role = Role.Candidate ∧ N / 2 + 1 ≤ st.votes.length then
    ({ st with role := Role.Leader },
      (others N n).map (fun d => appendEntriesFor n st d (lastLogIndex st.log)))
  else (st, [])

/-- Modelled from the spec: the engine's start of an election at node `n`: term
incremented, role Candidate, vote cast for itself. -/
def becomeCandidate (n : Nat) (st : Node) : Node :=
  { st with currentTerm := st.currentTerm + 1, role := Role.Candidate,
            votedFor := some n, votes := [n] }

/-- Modelled from the spec: the engine's election timeout at a Follower or
Candidate: start an election and issue RequestVote to every other configured
node. -/
def onTimeout (N n : Nat) (st : Node) : Node × List Message :=
  if st.role = Role.Leader then (st, [])
  else
    let st1 := becomeCandidate n st
    let reqs := (others N n).map (fun d =>
      Message.RequestVote n d st1.currentTerm (lastLogIndex st1.log) (lastLogTerm st1.log))
    ((tally N n st1).1, reqs ++ (tally N n st1).2)

/-- Modelled from the spec: the engine's RequestVote handling. After term
handling, the vote is granted iff (a) the candidate's term is at least the
current term, (b) no vote went to a different candidate in that term, and (c)
the candidate's log is at least as up-to-date; a refusal carries the current
term. -/
def onRequestVote (n : Nat) (st : Node) (src term lastIdx lastTerm : Nat) :
    Node × List Message :=
  let st1 := observeTerm st term
  if st1.currentTerm ≤ term ∧ (st1.votedFor = none ∨ st1.votedFor = some src) ∧
      upToDate lastTerm lastIdx st1.log = true then
    ({ st1 with votedFor := some src }, [Message.RequestVoteReply n src st1.currentTerm true])
  else (st1, [Message.RequestVoteReply n src st1.currentTerm false])

/-- Count the grant of `src`. -/
def addVote (st : Node) (src : Nat) : Node := { st with votes := src :: st.votes }

/-- Modelled from the spec: the engine's handling of a RequestVote response.
After term handling, a Candidate counts a grant for its current term from a
configured node, once, and becomes Leader on a strict majority. -/
def onRequestVoteReply (N n : Nat) (st : Node) (src term : Nat) (granted : Bool) :
    Node × List Message :=
  let st1 := observeTerm st term
  if st1.role = Role.Candidate ∧ term = st1.currentTerm ∧ granted = true ∧ src < N ∧
      src ∉ st1.votes then
    tally N n (addVote st1 src)
  else (st1, [])

/-- Modelled from the spec: the engine's Candidate that observes a leader of its
own term through AppendEntries and steps down (section 8, last scenario). -/
def yieldToLeader (st : Node) : Node :=
  if st.role = Role.Candidate then { st with role := Role.Follower } else st

/-- Modelled from the spec: the engine's AppendEntries handling. After term
handling, a stale request is answered with the current term and a negative
result; a Candidate seeing a leader of its term steps down; the request is
rejected if `prevLogIndex` exceeds the log or the term there is not
`prevLogTerm`; otherwise the suffix after `prevLogIndex` is replaced by the
leader's entries. -/
def onAppendEntries (n : Nat) (st : Node) (src term prevLogIndex prevLogTerm : Nat)
    (entries : List LogEntry) : Node × List Message :=
  let st1 := observeTerm st term
  if term < st1.currentTerm then
    (st1, [Message.AppendEntriesReply n src st1.currentTerm false])
  else
    let st2 := yieldToLeader st1
    if prevLogIndex ≤ st2.log.length ∧ termAt st2.log prevLogIndex = prevLogTerm then
      ({ st2 with log := st2.log.take prevLogIndex ++ entries },
        [Message.AppendEntriesReply n src st2.currentTerm true])
    else (st2, [Message.AppendEntriesReply n src st2.currentTerm false])

/-- Modelled from the spec: the engine's single dispatch point for a message
that reaches node `n`. -/
def onMessage (N n : Nat) (st : Node) : Message → Node × List Message
  | Message.RequestVote src _ term lastIdx lastTerm => onRequestVote n st src term lastIdx lastTerm
  | Message.RequestVoteReply src _ term granted => onRequestVoteReply N n st src term granted
  | Message.AppendEntries src _ term prevIdx prevTerm entries =>
    onAppendEntries n st src term prevIdx prevTerm entries
  | Message.AppendEntriesReply _ _ term _ => (observeTerm st term, [])

/-- Modelled from the spec: the engine's Leader sending AppendEntries to `d` from
`prevLogIndex` on: a heartbeat when that is its last index, an earlier prefix
after a rejection. -/
def onReplicate (n : Nat) (st : Node) (d prevLogIndex : Nat) : Node × List Message :=
  if st.role = Role.Leader ∧ prevLogIndex ≤ st.log.length then
    (st, [appendEntriesFor n st d prevLogIndex])
  else (st, [])

/-- Modelled from the spec: the engine's Leader appending a client command to its
log, in its current term. -/
def onClient (st : Node) (command : String) : Node × List Message :=
  if st.role = Role.Leader then
    ({ st with log := st.log ++ [{ term := st.currentTerm, command := command }] }, [])
  else (st, [])

/-- Modelled from the spec: the cluster the engine runs in: the number of
configured nodes, the state of each (by position in the ClusterConfiguration),
and every message sent so far. A message stays available, so it may be delivered
late, more than once, or never (the Transport does not retry). -/
structure Cluster where
  size : Nat
  nodes : Nat → Node
  network : List Message

/-- Modelled from the spec: the engine's initial cluster: every node a Follower
in term zero with an empty log, and no message sent. -/
def Cluster.init (N : Nat) : Cluster := { size := N, nodes := fun _ => {}, network := [] }

/-- Modelled from the spec: what drives the engine: timer expiry, arrival of an
RPC or response, a leader's replication round, a client command, and the
restart of a node's process. -/
inductive Event where
  /-- The election timer of node `n` expires. -/
  | timeout (n : Nat)
  /-- A message sent earlier reaches its receiver. -/
  | deliver (m : Message)
  /-- Leader `n` sends AppendEntries to `d` from `prevLogIndex` on. -/
  | replicate (n d prevLogIndex : Nat)
  /-- A client command reaches node `n`. -/
  | client (n : Nat) (command : String)
  /-- The process of node `n` restarts. -/
  | restart (n : Nat)
  deriving DecidableEq, Repr

/-- Whether an event is a restart. -/
def Event.isRestart : Event → Bool
  | Event.restart _ => true
  | _ => false

/-- Node `n` takes a new state and sends messages. -/
def Cluster.update (c : Cluster) (n : Nat) (r : Node × List Message) : Cluster :=
  { c with nodes := Function.update c.nodes n r.1, network := c.network ++ r.2 }

/-- Modelled from the spec: one transition of the engine's cluster. An event that
does not apply (unknown node, message never sent) leaves the cluster as it is. A
restart puts the node back in its initial state: the store is volatile
(`raft.NewInmemStore()`, line 50 of `raft.go`; section 3: in the volatile-store
design the term resets to zero on restart), so term, vote and log are lost. -/
def Cluster.step (c : Cluster) : Event → Cluster
  | Event.timeout n =>
    if n < c.size then c.update n (onTimeout c.size n (c.nodes n)) else c
  | Event.deliver m =>
    if m ∈ c.network ∧ m.dst < c.size then
      c.update m.dst (onMessage c.size m.dst (c.nodes m.dst) m)
    else c
  | Event.replicate n d k =>
    if n < c.size ∧ d < c.size ∧ d ≠ n then c.update n (onReplicate n (c.nodes n) d k) else c
  | Event.client n command =>
    if n < c.size then c.update n (onClient (c.nodes n) command) else c
  | Event.restart n =>
    if n < c.size then c.update n ({}, []) else c

/-- Modelled from the spec: the engine's cluster of `N` nodes after a sequence of
events from the initial state. -/
def Cluster.run (N : Nat) (events : List Event) : Cluster :=
  events.foldl Cluster.step (Cluster.init N)

/-- Three nodes: node 0 stands for term 1 and wins with the vote of node 1; node
1 restarts; node 2, which has heard nothing, stands for term 1 and wins with the
vote of the restarted node 1. -/
def restartTrace : List Event :=
  [Event.timeout 0,
   Event.deliver (Message.RequestVote 0 1 1 0 0),
   Event.deliver (Message.RequestVoteReply 1 0 1 true),
   Event.restart 1,
   Event.timeout 2,
   Event.deliver (Message.RequestVote 2 1 1 0 0),
   Event.deliver (Message.RequestVoteReply 1 2 1 true)]

/-- Three nodes: node 0 stands for term 1 and wins with the vote of node 1. -/
def electionTrace : List Event :=
  [Event.timeout 0,
   Event.deliver (Message.RequestVote 0 1 1 0 0),
   Event.deliver (Message.RequestVoteReply 1 0 1 true),
   Event.timeout 2,
   Event.deliver (Message.RequestVote 2 1 1 0 0)]

/-! ### Auxiliary definitions for the proof of election safety -/

/-- The vote-grant message from `v` to candidate `d` for term `t`. -/
def grant (v d t : Nat) : Message := Message.RequestVoteReply v d t true

/-- The invariant behind election safety, for a cluster whose nodes never lose
their state: a grant binds its sender for that term, a node grants to one
candidate per term, a Candidate or Leader has voted for itself and counts only
grants that were sent, from distinct configured nodes, and a Leader holds a
strict majority of them. -/
structure Inv (c : Cluster) : Prop where
  voted : ∀ v d t, grant v d t ∈ c.network →
    t ≤ (c.nodes v).currentTerm ∧
      ((c.nodes v).currentTerm = t → (c.nodes v).votedFor = some d)
  unique : ∀ v d d' t, grant v d t ∈ c.network → grant v d' t ∈ c.network → d = d'
  self : ∀ n, (c.nodes n).role ≠ Role.Follower → (c.nodes n).votedFor = some n
  votes : ∀ n, (c.nodes n).role ≠ Role.Follower → ∀ v ∈ (c.nodes n).votes,
    v = n ∨ grant v n (c.nodes n).currentTerm ∈ c.network
  wf : ∀ n, (c.nodes n).role ≠ Role.Follower →
    (c.nodes n).votes.Nodup ∧ ∀ v ∈ (c.nodes n).votes, v < c.size
  quorum : ∀ n, (c.nodes n).role = Role.Leader → c.size / 2 + 1 ≤ (c.nodes n).votes.length

/-- What a transition of node `n` to state `st` sending `out` must satisfy to
keep the invariant. -/
structure LocalOK (c : Cluster) (n : Nat) (st : Node) (out : List Message) : Prop where
  mono : (c.nodes n).currentTerm ≤ st.currentTerm
  keep : st.currentTerm = (c.nodes n).currentTerm →
    ∀ d, (c.nodes n).votedFor = some d → st.votedFor = some d
  grants : ∀ v d t, grant v d t ∈ out →
    v = n ∧ t = st.currentTerm ∧ st.votedFor = some d ∧
      ((c.nodes n).currentTerm = t → (c.nodes n).votedFor = none ∨ (c.nodes n).votedFor = some d)
  self : st.role ≠ Role.Follower → st.votedFor = some n
  votes : st.role ≠ Role.Follower → ∀ v ∈ st.votes,
    v = n ∨ grant v n st.currentTerm ∈ c.network
  wf : st.role ≠ Role.Follower → st.votes.Nodup ∧ ∀ v ∈ st.votes, v < c.size
  quorum : st.role = Role.Leader → c.size / 2 + 1 ≤ st.votes.length

/-- A change of node state that casts no vote and gains no role: either term and
vote are kept and the node keeps its role and tally or falls back to Follower,
or the term grows and the node is a Follower. -/
def Benign (st st' : Node) : Prop :=
  (st'.currentTerm = st.currentTerm ∧ st'.votedFor = st.votedFor ∧
      (st'.role = Role.Follower ∨ (st'.role = st.role ∧ st'.votes = st.votes))) ∨
    (st.currentTerm < st'.currentTerm ∧ st'.role = Role.Follower)

end Engine

namespace RaftProxy

theorem digitChar_toNat (k : Nat) (hk : k < 10) : (Nat.digitChar k).toNat - 48 = k := by
  interval_cases k <;> rfl

theorem foldl_toDigitsCore (fuel : Nat) : ∀ (n : Nat) (ds : List Char), n < fuel →
    (Nat.toDigitsCore 10 fuel n ds).foldl (fun a c => 10 * a + (c.toNat - 48)) 0
      = ds.foldl (fun a c => 10 * a + (c.toNat - 48)) n := by
  induction fuel with
  | zero => intro n ds h; omega
  | succ fuel ih =>
    intro n ds h
    simp only [Nat.toDigitsCore]
    split
    · rename_i h0
      have hn : n < 10 := by omega
      simp only [List.foldl_cons, Nat.mul_zero, Nat.zero_add]
      rw [Nat.mod_eq_of_lt hn, digitChar_toNat n hn]
    · rename_i h0
      rw [ih (n / 10) _ (by omega)]
      simp only [List.foldl_cons]
      rw [digitChar_toNat _ (Nat.mod_lt _ (by decide))]
      congr 1
      omega

theorem readDecimal_decimal (n : Nat) : readDecimal (decimal n).data = n := by
  simp only [decimal, readDecimal, Nat.toDigits]
  rw [foldl_toDigitsCore (n + 1) n [] (by omega)]
  rfl

theorem decimal_injective : Function.Injective decimal := by
  intro a b h
  have := congrArg (fun s => readDecimal s.data) h
  simpa [readDecimal_decimal] using this

theorem Itoa_natCast_succ (i : Nat) : Itoa ((i : Int) + 1) = decimal (i + 1) := by
  unfold Itoa
  have h : ¬ ((i : Int) + 1 < 0) := by omega
  rw [if_neg h]
  congr 1

theorem loMapFrom_length {α β : Type} (f : α → Int → β) : ∀ (k : Nat) (l : List α),
    (loMapFrom f k l).length = l.length := by
  intro k l
  induction l generalizing k with
  | nil => rfl
  | cons x xs ih => simp [loMapFrom, ih]

theorem loMapFrom_getElem? {α β : Type} (f : α → Int → β) : ∀ (l : List α) (k i : Nat),
    (loMapFrom f k l)[i]? = (l[i]?).map (fun x => f x ((k + i : Nat) : Int)) := by
  intro l
  induction l with
  | nil => intro k i; simp [loMapFrom]
  | cons x xs ih =>
    intro k i
    cases i with
    | zero => simp [loMapFrom]
    | succ i =>
      simp only [loMapFrom, List.getElem?_cons_succ, ih]
      congr 2
      funext y
      congr 2
      omega

theorem loMapFrom_ids (p : Nat) : ∀ (l : List String) (k : Nat),
    (loMapFrom (fun item index =>
      ({ ID := Itoa (index + 1), Address := Sprintf_s_colon_d item p } : Server)) k l).map
        (fun s => s.ID) = (List.range' k l.length).map (fun i => decimal (i + 1)) := by
  intro l
  induction l with
  | nil => intro k; rfl
  | cons x xs ih =>
    intro k
    simp only [loMapFrom, List.map_cons, List.length_cons, List.range'_succ, ih]
    rw [Itoa_natCast_succ]


/-! ## The request handler -/

theorem handler_calls (request : Request) (g : Globals) :
    (handler request g).calls =
      if g.proxyLock.Lock.1 = Outcome.returned then
        Call.Lock :: handlerBody request g.proxy ++ [Call.RUnlock]
      else [Call.Lock] := by
  unfold handler
  rcases hL : g.proxyLock.Lock with ⟨o, l1⟩
  cases o <;> simp

theorem handler_proxy (request : Request) (g : Globals) :
    (handler request g).globals.proxy = g.proxy := by
  unfold handler
  rcases hL : g.proxyLock.Lock with ⟨o, l1⟩
  cases o <;> simp

theorem handler_zero (request : Request) (proxy : Option ReverseProxy) :
    handler request { proxy := proxy, proxyLock := {} } =
      { calls := Call.Lock :: handlerBody request proxy ++ [Call.RUnlock],
        outcome := Outcome.fatal "sync: RUnlock of unlocked RWMutex",
        globals := { proxy := proxy,
                     proxyLock := { w := true, readerCount := -1073741825 } } } := by
  rfl

theorem handler_lock_held (request : Request) (proxy : Option ReverseProxy) (l : RWMutex) :
    handler request { proxy := proxy, proxyLock := { l with w := true } } =
      { calls := [Call.Lock], outcome := Outcome.blocked,
        globals := { proxy := proxy, proxyLock := { l with w := true } } } := by
  rfl

/-- C2 (as the code behaves): in every run of the handler the only acquisition
of `proxyLock` is the exclusive `Lock()`, never `RLock()`; and once the handler
holds the lock taken from the unlocked mutex, a reader calling `RLock()` blocks. -/
theorem C2_handler_acquires_exclusively (request : Request) (g : Globals) :
    (handler request g).calls.filter Call.isAcquire = [Call.Lock] ∧
      (handler request g).calls.head? = some Call.Lock ∧
      Call.RLock ∉ (handler request g).calls ∧
      ((RWMutex.Lock {}).2.RLock).1 = Outcome.blocked := by
  rw [handler_calls]
  refine ⟨?_, ?_, ?_, by decide⟩
  · split <;> cases g.proxy <;> simp [handlerBody, Call.isAcquire, List.filter]
  · split <;> simp
  · split <;> cases g.proxy <;> simp [handlerBody]

/-- C7: handling a request leaves `proxy` as it was, whatever the request, the
value of `proxy` and the state of the lock, in the forwarding branch, in the
service-unavailable branch and when the acquisition does not return. -/
theorem C7_handler_preserves_proxy (request : Request) (g : Globals) :
    (handler request g).globals.proxy = g.proxy ∧
      ∀ p : Process, (step p (Event.request request)).globals.proxy = p.globals.proxy := by
  refine ⟨handler_proxy request g, ?_⟩
  intro p
  simp only [step]
  split
  · exact handler_proxy request p.globals
  · rfl

/-- C9 (as the code behaves): from the unlocked `proxyLock`, for every request
and every value of `proxy`, the handler acquires with `Lock()` and releases with
`RUnlock()`; the release raises the fatal error
`sync: RUnlock of unlocked RWMutex`, the mutex is left write-locked, and the
process no longer serves. -/
theorem C9_handler_release_faults (request : Request) (proxy : Option ReverseProxy) :
    (handler request { proxy := proxy, proxyLock := {} }).outcome =
        Outcome.fatal "sync: RUnlock of unlocked RWMutex" ∧
      (handler request { proxy := proxy, proxyLock := {} }).calls.head? = some Call.Lock ∧
      (handler request { proxy := proxy, proxyLock := {} }).calls.getLast? = some Call.RUnlock ∧
      (handler request { proxy := proxy, proxyLock := {} }).globals.proxyLock ≠ {} ∧
      (handler request { proxy := proxy, proxyLock := {} }).globals.proxyLock.w = true ∧
      (step { serving := true, globals := { proxy := proxy, proxyLock := {} }, handled := [] }
        (Event.request request)).serving = false := by
  rw [handler_zero]
  refine ⟨rfl, rfl, ?_, ?_, rfl, ?_⟩
  · cases proxy <;> rfl
  · intro h
    exact Bool.noConfusion (congrArg RWMutex.w h)
  · simp only [step, handler_zero]
    rfl


/-! ## The configuration -/

theorem servers_getElem? (joinList : List String) (advertisePort : Nat) (i : Nat) :
    (configurations joinList advertisePort).Servers[i]? =
      (joinList[i]?).map (fun item =>
        { Suffrage := ServerSuffrage.Voter, ID := decimal (i + 1),
          Address := item ++ ":" ++ decimal advertisePort }) := by
  have hf : (fun item : String =>
      ({ ID := Itoa (((0 + i : Nat) : Int) + 1),
         Address := Sprintf_s_colon_d item advertisePort } : Server)) =
      (fun item => { ID := decimal (i + 1), Address := item ++ ":" ++ decimal advertisePort }) := by
    funext item
    rw [Nat.zero_add, Itoa_natCast_succ]
    rfl
  simp only [configurations, loMap, loMapFrom_getElem?]
  rw [hf]

theorem decimal_succ_injective : Function.Injective (fun i : Nat => decimal (i + 1)) := by
  intro a b h
  have := decimal_injective h
  omega

/-- C4: for every join list, repeated entries included, and every port, the ids
of the servers of the configuration built from it are pairwise distinct: the
list of ids has no duplicate, two positions holding servers with equal ids are
the same position, and the rendering `i ↦ Itoa (i + 1)` is injective. -/
theorem C4_server_ids_distinct (joinList : List String) (advertisePort : Nat) :
    ((configurations joinList advertisePort).Servers.map (fun s => s.ID)).Nodup ∧
      (∀ (i j : Nat) (si sj : Server),
        (configurations joinList advertisePort).Servers[i]? = some si →
        (configurations joinList advertisePort).Servers[j]? = some sj →
        si.ID = sj.ID → i = j) ∧
      Function.Injective (fun i : Nat => Itoa ((i : Int) + 1)) := by
  refine ⟨?_, ?_, ?_⟩
  · simp only [configurations, loMap]
    rw [loMapFrom_ids]
    exact (List.nodup_range' 0 joinList.length).map decimal_succ_injective
  · intro i j si sj hi hj hid
    rw [servers_getElem?] at hi hj
    rcases hxi : joinList[i]? with _ | xi
    · rw [hxi] at hi; cases hi
    · rcases hxj : joinList[j]? with _ | xj
      · rw [hxj] at hj; cases hj
      · rw [hxi] at hi
        rw [hxj] at hj
        simp only [Option.map_some', Option.some.injEq] at hi hj
        rw [← hi, ← hj] at hid
        exact decimal_succ_injective hid
  · intro a b h
    simp only [Itoa_natCast_succ] at h
    exact decimal_succ_injective h

/-- C5: for every join list and every advertise port `p`, the configuration has
as many servers as the join list has entries, in the same order: position `i`
holds the server with id the decimal string of `i + 1` and address the `i`-th
join entry followed by `":"` and the decimal string of `p`, and there is no
server at a position past the end of the join list. -/
theorem C5_configuration_servers (joinList : List String) (advertisePort : Nat) :
    (configurations joinList advertisePort).Servers.length = joinList.length ∧
      ∀ i : Nat, (configurations joinList advertisePort).Servers[i]? =
        (joinList[i]?).map (fun item =>
          { Suffrage := ServerSuffrage.Voter, ID := decimal (i + 1),
            Address := item ++ ":" ++ decimal advertisePort }) := by
  constructor
  · simp [configurations, loMap, loMapFrom_length]
  · exact servers_getElem? joinList advertisePort

/-! ## `RunE` -/

/-- C6 (as the code behaves): the result of `RunE` does not depend on what
`BootstrapCluster` reports; and with no `--join` flag, where the bootstrap of
the empty configuration reports an error, `RunE` has called `BootstrapCluster`,
has installed the request handler and is serving instead of returning. -/
theorem C6_bootstrap_error_ignored (flags : Flags) (env : Env)
    (bootstrap : Configuration → Option Error) :
    RunE flags { env with BootstrapCluster := bootstrap } = RunE flags env ∧
      noVoterEnv.BootstrapCluster (configurations [] 1111) =
        some "node is not a voter" ∧
      RunE { nodeID := "1", advertiseHost := "10.0.0.1" } noVoterEnv =
        { bootstrapArg := some { Servers := [] }, handlerInstalled := true,
          finish := RunEnd.serving } := by
  exact ⟨rfl, rfl, rfl⟩

/-! ## The process -/

theorem onLeadershipEvent_eq (e : LeadershipEvent) (g : Globals) :
    onLeadershipEvent e g = g := rfl

theorem boot_inv (cmd : Command) (flags : Flags) (env : Env) :
    ProcessInv (boot cmd flags env) := by
  cases cmd <;> exact ⟨rfl, fun _ => rfl, fun rh h => by simp [boot] at h⟩

theorem step_inv (p : Process) (ev : Event) (h : ProcessInv p) : ProcessInv (step p ev) := by
  obtain ⟨hp, hl, hh⟩ := h
  cases ev with
  | request r =>
    simp only [step]
    split
    · rename_i hs
      have hg : p.globals = { proxy := none, proxyLock := {} } := by
        rcases hpg : p.globals with ⟨px, lk⟩
        rw [hpg] at hp
        have := hl hs
        rw [hpg] at this
        simp only at hp this
        rw [hp, this]
      rw [hg, handler_zero]
      refine ⟨rfl, ?_, ?_⟩
      · intro hs2
        exact Bool.noConfusion hs2
      · intro rh hmem
        rcases List.mem_append.1 hmem with h1 | h1
        · exact hh rh h1
        · rw [List.mem_singleton.1 h1]
          rfl
    · exact ⟨hp, hl, hh⟩
  | leadership e =>
    simp only [step]
    split
    · exact ⟨hp, hl, hh⟩
    · exact ⟨hp, hl, hh⟩

theorem run_inv (events : List Event) : ∀ p : Process, ProcessInv p → ProcessInv (run p events) := by
  induction events with
  | nil => intro p h; exact h
  | cons ev rest ih =>
    intro p h
    exact ih (step p ev) (step_inv p ev h)

theorem step_fatal (p : Process) (ev : Event) (hi : ProcessInv p)
    (hf : ∀ rh ∈ p.handled, rh.2.outcome = Outcome.fatal "sync: RUnlock of unlocked RWMutex") :
    ∀ rh ∈ (step p ev).handled,
      rh.2.outcome = Outcome.fatal "sync: RUnlock of unlocked RWMutex" := by
  obtain ⟨hp, hl, _⟩ := hi
  cases ev with
  | request r =>
    simp only [step]
    split
    · rename_i hs
      have hg : p.globals = { proxy := none, proxyLock := {} } := by
        rcases hpg : p.globals with ⟨px, lk⟩
        rw [hpg] at hp
        have := hl hs
        rw [hpg] at this
        simp only at hp this
        rw [hp, this]
      rw [hg, handler_zero]
      intro rh hmem
      rcases List.mem_append.1 hmem with h1 | h1
      · exact hf rh h1
      · rw [List.mem_singleton.1 h1]
    · exact hf
  | leadership e =>
    simp only [step]
    split
    · exact hf
    · exact hf

theorem run_fatal (events : List Event) : ∀ p : Process, ProcessInv p →
    (∀ rh ∈ p.handled, rh.2.outcome = Outcome.fatal "sync: RUnlock of unlocked RWMutex") →
    ∀ rh ∈ (run p events).handled,
      rh.2.outcome = Outcome.fatal "sync: RUnlock of unlocked RWMutex" := by
  induction events with
  | nil => intro p _ hf; exact hf
  | cons ev rest ih =>
    intro p hi hf
    exact ih (step p ev) (step_inv p ev hi) (step_fatal p ev hi hf)

/-- C1 (as the code behaves): for every request and every value of `proxy`, the
handler run from the unlocked `proxyLock` makes its answering call
(`http.Error` with 503 when `proxy` is nil, `proxy.ServeHTTP` otherwise) and then
ends in the fatal error of the deferred `RUnlock()`: it does not return, and the
process stops serving. A request that finds the lock held makes the call
`Lock()` only and stays blocked there. In every state reached from program
start, every handler run so far ended in that fatal error. -/
theorem C1_handler_faults_before_answer (request : Request) (proxy : Option ReverseProxy) :
    (handler request { proxy := proxy, proxyLock := {} }).calls =
        Call.Lock :: handlerBody request proxy ++ [Call.RUnlock] ∧
      (handler request { proxy := proxy, proxyLock := {} }).outcome =
        Outcome.fatal "sync: RUnlock of unlocked RWMutex" ∧
      (handler request { proxy := proxy, proxyLock := {} }).outcome ≠ Outcome.returned ∧
      (step { serving := true, globals := { proxy := proxy, proxyLock := {} }, handled := [] }
        (Event.request request)).serving = false ∧
      (∀ l : RWMutex,
        (handler request { proxy := proxy, proxyLock := { l with w := true } }).calls =
            [Call.Lock] ∧
          (handler request { proxy := proxy, proxyLock := { l with w := true } }).outcome =
            Outcome.blocked) ∧
      ∀ (cmd : Command) (flags : Flags) (env : Env) (events : List Event),
        ∀ rh ∈ (run (boot cmd flags env) events).handled,
          rh.2.outcome = Outcome.fatal "sync: RUnlock of unlocked RWMutex" := by
  refine ⟨by rw [handler_zero], by rw [handler_zero], ?_, ?_, ?_, ?_⟩
  · rw [handler_zero]
    intro h
    cases h
  · simp only [step, handler_zero]
    rfl
  · intro l
    rw [handler_lock_held]
    exact ⟨rfl, rfl⟩
  · intro cmd flags env events
    exact run_fatal events (boot cmd flags env) (boot_inv cmd flags env)
      (fun rh h => by cases cmd <;> simp [boot] at h)

theorem handler_nil_calls (request : Request) (l : RWMutex) :
    (handler request { proxy := none, proxyLock := l }).calls = [Call.Lock] ∨
      (handler request { proxy := none, proxyLock := l }).calls =
        [Call.Lock, Call.Error "Service Unavailable" 503, Call.RUnlock] := by
  rw [handler_calls]
  split
  · right; rfl
  · left; rfl

/-- C10: in every state reached from program start by `Execute` (either
command, any flags, any outcome of the library calls of `RunE`, bootstrap
included) followed by any sequence of handled requests and leadership
notifications, `proxy` is nil; every handler run so far made exactly the calls
`Lock`, `http.Error` with `"Service Unavailable"` and 503, `RUnlock`, so every
answer is a 503 and none forwarded a request. Whatever the state of the lock, a
handler run with `proxy` nil leaves it nil, forwards nothing, and either stops
at `Lock` or answers 503. -/
theorem C10_proxy_always_nil (cmd : Command) (flags : Flags) (env : Env)
    (events : List Event) :
    (run (boot cmd flags env) events).globals.proxy = none ∧
      (∀ rh ∈ (run (boot cmd flags env) events).handled,
        rh.2.calls = [Call.Lock, Call.Error "Service Unavailable" 503, Call.RUnlock]) ∧
      (∀ rh ∈ (run (boot cmd flags env) events).handled, ∀ c ∈ rh.2.calls,
        c.isForward = false) ∧
      ∀ (request : Request) (l : RWMutex),
        (handler request { proxy := none, proxyLock := l }).globals.proxy = none ∧
        (∀ c ∈ (handler request { proxy := none, proxyLock := l }).calls,
          c.isForward = false) ∧
        ((handler request { proxy := none, proxyLock := l }).calls = [Call.Lock] ∨
          (handler request { proxy := none, proxyLock := l }).calls =
            [Call.Lock, Call.Error "Service Unavailable" 503, Call.RUnlock]) := by
  obtain ⟨hp, _, hh⟩ := run_inv events (boot cmd flags env) (boot_inv cmd flags env)
  refine ⟨hp, hh, ?_, ?_⟩
  · intro rh hmem c hc
    rw [hh rh hmem] at hc
    simp only [List.mem_cons, List.mem_singleton] at hc
    rcases hc with h | h | h | h <;> first | (rw [h]; rfl) | cases h
  · intro request l
    refine ⟨handler_proxy request _, ?_, handler_nil_calls request l⟩
    intro c hc
    rcases handler_nil_calls request l with h | h <;> rw [h] at hc <;>
      simp only [List.mem_cons, List.mem_singleton] at hc
    · rcases hc with h | h <;> first | (rw [h]; rfl) | cases h
    · rcases hc with h | h | h | h <;> first | (rw [h]; rfl) | cases h

/-- C3 (counterexample): after the engine reports that the local node `"1"` has
become leader, and after it reports the remote leader `"2"`, `proxy` is still
nil, while the specified target is the local address, respectively the address
the configuration gives for `"2"`. -/
theorem C3_counterexample :
    (run (boot Command.raft
          { nodeID := "1", advertiseHost := "10.0.0.1", joinList := ["10.0.0.1", "10.0.0.2"] }
          { ResolveTCPAddr := fun _ => none, NewTCPTransportWithLogger := fun _ => none,
            NewRaft := fun _ => none, BootstrapCluster := fun _ => none,
            ListenAndServe := none })
        [Event.leadership { term := 1, leader := some "1" }]).globals.proxy = none ∧
      specProxyTarget "1" "10.0.0.1:1111" (configurations ["10.0.0.1", "10.0.0.2"] 1111)
        { term := 1, leader := some "1" } = some ⟨"10.0.0.1:1111"⟩ ∧
      (run (boot Command.raft
          { nodeID := "1", advertiseHost := "10.0.0.1", joinList := ["10.0.0.1", "10.0.0.2"] }
          { ResolveTCPAddr := fun _ => none, NewTCPTransportWithLogger := fun _ => none,
            NewRaft := fun _ => none, BootstrapCluster := fun _ => none,
            ListenAndServe := none })
        [Event.leadership { term := 2, leader := some "2" }]).globals.proxy = none ∧
      specProxyTarget "1" "10.0.0.1:1111" (configurations ["10.0.0.1", "10.0.0.2"] 1111)
        { term := 2, leader := some "2" } = some ⟨"10.0.0.2:1111"⟩ := by
  refine ⟨rfl, by decide, rfl, by decide⟩

/-- C3 (amended): a leadership notification leaves `proxy` as it was; in every
state reached from program start it is nil before and after the notification,
which is the specified target exactly when the event carries no leader. -/
theorem C3_leadership_event_leaves_proxy (cmd : Command) (flags : Flags) (env : Env)
    (events : List Event) (e : LeadershipEvent) (localID localAddr : String)
    (cfg : Configuration) :
    (step (run (boot cmd flags env) events) (Event.leadership e)).globals.proxy =
        (run (boot cmd flags env) events).globals.proxy ∧
      (step (run (boot cmd flags env) events) (Event.leadership e)).globals.proxy = none ∧
      (specProxyTarget localID localAddr cfg e = none ↔
        e.leader = none ∨ (e.leader ≠ some localID ∧
          ∀ s ∈ cfg.Servers, some s.ID ≠ e.leader)) ∧
      (onLeadershipEvent e (run (boot cmd flags env) events).globals).proxy =
        (run (boot cmd flags env) events).globals.proxy := by
  have h1 := (step_inv _ (Event.leadership e)
    (run_inv events (boot cmd flags env) (boot_inv cmd flags env))).1
  have h0 := (run_inv events (boot cmd flags env) (boot_inv cmd flags env)).1
  refine ⟨by rw [h1, h0], h1, ?_, rfl⟩
  unfold specProxyTarget
  cases hl : e.leader with
  | none => simp
  | some id =>
    by_cases hid : id = localID
    · simp [hid]
    · simp only [if_neg hid, Option.map_eq_none', List.find?_eq_none, beq_iff_eq,
        reduceCtorEq, false_or, ne_eq, Option.some.injEq]
      constructor
      · intro h
        exact ⟨hid, fun s hs => h s hs⟩
      · intro h s hs
        exact h.2 s hs

end RaftProxy

namespace Engine

theorem update_nodes_same (c : Cluster) (n : Nat) (r : Node × List Message) :
    (c.update n r).nodes n = r.1 := by
  simp [Cluster.update]

theorem update_nodes_other (c : Cluster) (n v : Nat) (r : Node × List Message) (h : v ≠ n) :
    (c.update n r).nodes v = c.nodes v := by
  simp [Cluster.update, Function.update, h]

theorem update_network (c : Cluster) (n : Nat) (r : Node × List Message) :
    (c.update n r).network = c.network ++ r.2 := rfl

theorem update_size (c : Cluster) (n : Nat) (r : Node × List Message) :
    (c.update n r).size = c.size := rfl

theorem inv_update (c : Cluster) (n : Nat) (r : Node × List Message) (hc : Inv c)
    (hl : LocalOK c n r.1 r.2) : Inv (c.update n r) := by
  constructor
  · intro v d t hm
    rw [update_network, List.mem_append] at hm
    by_cases hv : v = n
    · subst hv
      rw [update_nodes_same]
      rcases hm with hm | hm
      · have h1 := hc.voted v d t hm
        have h2 := hl.mono
        refine ⟨by omega, fun he => ?_⟩
        exact hl.keep (by omega) d (h1.2 (by omega))
      · obtain ⟨_, ht, hvf, _⟩ := hl.grants v d t hm
        exact ⟨by omega, fun _ => hvf⟩
    · rw [update_nodes_other c n v r hv]
      rcases hm with hm | hm
      · exact hc.voted v d t hm
      · exact absurd (hl.grants v d t hm).1 hv
  · intro v d d' t hm hm'
    rw [update_network, List.mem_append] at hm hm'
    rcases hm with hm | hm <;> rcases hm' with hm' | hm'
    · exact hc.unique v d d' t hm hm'
    · obtain ⟨hv, ht, hvf, hpre⟩ := hl.grants v d' t hm'
      subst hv
      have h1 := hc.voted v d t hm
      have h2 := hl.mono
      have he : (c.nodes v).currentTerm = t := by omega
      have h3 := h1.2 he
      rcases hpre he with h4 | h4
      · rw [h3] at h4; cases h4
      · rw [h3] at h4; exact Option.some.inj h4
    · obtain ⟨hv, ht, hvf, hpre⟩ := hl.grants v d t hm
      subst hv
      have h1 := hc.voted v d' t hm'
      have h2 := hl.mono
      have he : (c.nodes v).currentTerm = t := by omega
      have h3 := h1.2 he
      rcases hpre he with h4 | h4
      · rw [h3] at h4; cases h4
      · rw [h3] at h4; exact (Option.some.inj h4).symm
    · have h1 := (hl.grants v d t hm).2.2.1
      have h2 := (hl.grants v d' t hm').2.2.1
      rw [h1] at h2
      exact Option.some.inj h2
  · intro v hr
    by_cases hv : v = n
    · subst hv
      rw [update_nodes_same] at hr ⊢
      exact hl.self hr
    · rw [update_nodes_other c n v r hv] at hr ⊢
      exact hc.self v hr
  · intro v hr w hw
    rw [update_network]
    by_cases hv : v = n
    · subst hv
      rw [update_nodes_same] at hr hw ⊢
      rcases hl.votes hr w hw with h | h
      · exact Or.inl h
      · exact Or.inr (List.mem_append_left _ h)
    · rw [update_nodes_other c n v r hv] at hr hw ⊢
      rcases hc.votes v hr w hw with h | h
      · exact Or.inl h
      · exact Or.inr (List.mem_append_left _ h)
  · intro v hr
    rw [update_size]
    by_cases hv : v = n
    · subst hv
      rw [update_nodes_same] at hr ⊢
      exact hl.wf hr
    · rw [update_nodes_other c n v r hv] at hr ⊢
      exact hc.wf v hr
  · intro v hr
    rw [update_size]
    by_cases hv : v = n
    · subst hv
      rw [update_nodes_same] at hr ⊢
      exact hl.quorum hr
    · rw [update_nodes_other c n v r hv] at hr ⊢
      exact hc.quorum v hr



theorem benign_refl (st : Node) : Benign st st := Or.inl ⟨rfl, rfl, Or.inr ⟨rfl, rfl⟩⟩

theorem benign_trans {a b c : Node} (h1 : Benign a b) (h2 : Benign b c) : Benign a c := by
  unfold Benign at *
  rcases h1 with ⟨t1, v1, r1⟩ | ⟨t1, r1⟩ <;> rcases h2 with ⟨t2, v2, r2⟩ | ⟨t2, r2⟩
  · left
    refine ⟨by omega, by rw [v2, v1], ?_⟩
    rcases r2 with r2 | ⟨r2, w2⟩
    · exact Or.inl r2
    · rcases r1 with r1 | ⟨r1, w1⟩
      · exact Or.inl (by rw [r2, r1])
      · exact Or.inr ⟨by rw [r2, r1], by rw [w2, w1]⟩
  · right; exact ⟨by omega, r2⟩
  · right
    refine ⟨by omega, ?_⟩
    rcases r2 with r2 | ⟨r2, _⟩
    · exact r2
    · rw [r2, r1]
  · right; exact ⟨by omega, r2⟩

theorem localOK_of_benign (c : Cluster) (n : Nat) (st : Node) (out : List Message) (hc : Inv c)
    (hno : ∀ v d t, grant v d t ∉ out) (h : Benign (c.nodes n) st) : LocalOK c n st out := by
  rcases h with ⟨ht, hv, hr⟩ | ⟨ht, hr⟩
  · rcases hr with hr | ⟨hr, hvs⟩
    · exact ⟨by omega, fun _ d hd => by rw [hv]; exact hd,
        fun v d t hm => absurd hm (hno v d t), fun h => absurd hr h, fun h => absurd hr h,
        fun h => absurd hr h, fun h => by rw [hr] at h; cases h⟩
    · refine ⟨by omega, fun _ d hd => by rw [hv]; exact hd,
        fun v d t hm => absurd hm (hno v d t), ?_, ?_, ?_, ?_⟩
      · intro h; rw [hv]; exact hc.self n (by rw [← hr]; exact h)
      · intro h; rw [hvs, ht]; exact hc.votes n (by rw [← hr]; exact h)
      · intro h; rw [hvs]; exact hc.wf n (by rw [← hr]; exact h)
      · intro h; rw [hvs]; exact hc.quorum n (by rw [← hr]; exact h)
  · exact ⟨by omega, fun he => by omega, fun v d t hm => absurd hm (hno v d t),
      fun h => absurd hr h, fun h => absurd hr h, fun h => absurd hr h,
      fun h => by rw [hr] at h; cases h⟩

theorem observeTerm_cases (st : Node) (term : Nat) :
    (¬ st.currentTerm < term ∧ observeTerm st term = st) ∨
      (st.currentTerm < term ∧ (observeTerm st term).currentTerm = term ∧
        (observeTerm st term).votedFor = none ∧ (observeTerm st term).role = Role.Follower ∧
        (observeTerm st term).log = st.log ∧ (observeTerm st term).votes = st.votes) := by
  unfold observeTerm
  by_cases h : st.currentTerm < term
  · right; simp [h]
  · left; simp [h]

theorem observeTerm_benign (st : Node) (term : Nat) : Benign st (observeTerm st term) := by
  rcases observeTerm_cases st term with ⟨_, h⟩ | ⟨hlt, ht, _, hr, _, _⟩
  · rw [h]; exact benign_refl st
  · right; exact ⟨by omega, hr⟩

theorem yieldToLeader_benign (st : Node) : Benign st (yieldToLeader st) := by
  unfold yieldToLeader
  split
  · exact Or.inl ⟨rfl, rfl, Or.inl rfl⟩
  · exact benign_refl st

theorem tally_out_no_grant (N n : Nat) (st : Node) (v d t : Nat) :
    grant v d t ∉ (tally N n st).2 := by
  unfold tally
  split
  · simp [grant, appendEntriesFor]
  · simp

theorem tally_fields (N n : Nat) (st : Node) :
    (tally N n st).1.currentTerm = st.currentTerm ∧ (tally N n st).1.votedFor = st.votedFor ∧
      (tally N n st).1.votes = st.votes ∧ (tally N n st).1.log = st.log ∧
      ((tally N n st).1.role = st.role ∨
        ((tally N n st).1.role = Role.Leader ∧ st.role = Role.Candidate ∧
          N / 2 + 1 ≤ st.votes.length)) := by
  unfold tally
  split
  · rename_i h
    exact ⟨rfl, rfl, rfl, rfl, Or.inr ⟨rfl, h.1, h.2⟩⟩
  · exact ⟨rfl, rfl, rfl, rfl, Or.inl rfl⟩

theorem localOK_onTimeout (c : Cluster) (n : Nat) (hc : Inv c) (hn : n < c.size) :
    LocalOK c n (onTimeout c.size n (c.nodes n)).1 (onTimeout c.size n (c.nodes n)).2 := by
  unfold onTimeout
  split
  · exact localOK_of_benign c n _ _ hc (by simp) (benign_refl _)
  · simp only
    have e1 : (becomeCandidate n (c.nodes n)).currentTerm = (c.nodes n).currentTerm + 1 := rfl
    have e2 : (becomeCandidate n (c.nodes n)).votedFor = some n := rfl
    have e3 : (becomeCandidate n (c.nodes n)).votes = [n] := rfl
    have e4 : (becomeCandidate n (c.nodes n)).role = Role.Candidate := rfl
    obtain ⟨t1, t2, t3, _, t5⟩ := tally_fields c.size n (becomeCandidate n (c.nodes n))
    refine ⟨by omega, fun he => by omega, ?_, ?_, ?_, ?_, ?_⟩
    · intro v d t hm
      rcases List.mem_append.1 hm with h | h
      · simp [grant] at h
      · exact absurd h (tally_out_no_grant _ _ _ _ _ _)
    · intro _; rw [t2, e2]
    · intro _ v hv
      rw [t3, e3] at hv
      exact Or.inl (List.mem_singleton.1 hv)
    · intro _
      rw [t3, e3]
      exact ⟨List.nodup_singleton n, fun v hv => by rw [List.mem_singleton.1 hv]; exact hn⟩
    · intro hl
      rcases t5 with h | ⟨_, _, h⟩
      · rw [h, e4] at hl; cases hl
      · rw [t3]; exact h

theorem localOK_onRequestVote (c : Cluster) (n src term lastIdx lastTerm : Nat) (hc : Inv c) :
    LocalOK c n (onRequestVote n (c.nodes n) src term lastIdx lastTerm).1
      (onRequestVote n (c.nodes n) src term lastIdx lastTerm).2 := by
  unfold onRequestVote
  simp only
  split
  · rename_i hcond
    obtain ⟨_, hvf, _⟩ := hcond
    rcases observeTerm_cases (c.nodes n) term with ⟨_, h⟩ | ⟨hlt, ht, hv0, hr, _, _⟩
    · rw [h] at hvf ⊢
      refine ⟨le_refl _, ?_, ?_, ?_, ?_, ?_, ?_⟩
      · intro _ d hd
        rcases hvf with h1 | h1
        · rw [h1] at hd; cases hd
        · rw [h1] at hd; exact hd
      · intro v d t hm
        simp only [grant, List.mem_singleton, Message.RequestVoteReply.injEq, and_true] at hm
        obtain ⟨h1, h2, h3⟩ := hm
        exact ⟨h1, h3, by rw [h2], fun _ => by rw [h2]; exact hvf⟩
      · intro hrole
        have := hc.self n hrole
        rcases hvf with h1 | h1
        · rw [h1] at this; cases this
        · rw [h1] at this; exact this
      · exact fun hrole => hc.votes n hrole
      · exact fun hrole => hc.wf n hrole
      · exact fun hrole => hc.quorum n hrole
    · refine ⟨by simp only; omega, fun he => by simp only at he; omega, ?_,
        fun h => absurd hr h, fun h => absurd hr h, fun h => absurd hr h,
        fun h => by simp only at h; rw [hr] at h; cases h⟩
      intro v d t hm
      simp only [grant, List.mem_singleton, Message.RequestVoteReply.injEq, and_true] at hm
      obtain ⟨h1, h2, h3⟩ := hm
      exact ⟨h1, h3, by rw [h2], fun he => by omega⟩
  · exact localOK_of_benign c n _ _ hc (by simp [grant]) (observeTerm_benign _ _)

theorem localOK_onRequestVoteReply (c : Cluster) (n src term : Nat) (granted : Bool)
    (hc : Inv c) (hm : Message.RequestVoteReply src n term granted ∈ c.network) :
    LocalOK c n (onRequestVoteReply c.size n (c.nodes n) src term granted).1
      (onRequestVoteReply c.size n (c.nodes n) src term granted).2 := by
  unfold onRequestVoteReply
  simp only
  split
  · rename_i hcond
    obtain ⟨hrole, hterm, hg, hsrc, hnew⟩ := hcond
    rcases observeTerm_cases (c.nodes n) term with ⟨_, h⟩ | ⟨_, _, _, hr, _, _⟩
    · rw [h] at hrole hterm hnew ⊢
      have e1 : (addVote (c.nodes n) src).currentTerm = (c.nodes n).currentTerm := rfl
      have e2 : (addVote (c.nodes n) src).votedFor = (c.nodes n).votedFor := rfl
      have e3 : (addVote (c.nodes n) src).votes = src :: (c.nodes n).votes := rfl
      have e4 : (addVote (c.nodes n) src).role = Role.Candidate := hrole
      have hnf : (c.nodes n).role ≠ Role.Follower := by rw [hrole]; exact fun h => by cases h
      obtain ⟨t1, t2, t3, _, t5⟩ := tally_fields c.size n (addVote (c.nodes n) src)
      refine ⟨by omega, fun _ d hd => by rw [t2, e2]; exact hd,
        fun v d t hm2 => absurd hm2 (tally_out_no_grant _ _ _ _ _ _), ?_, ?_, ?_, ?_⟩
      · intro _; rw [t2, e2]; exact hc.self n hnf
      · intro _ v hv
        rw [t3, e3] at hv
        rw [t1, e1]
        rcases List.mem_cons.1 hv with h1 | h1
        · right
          rw [h1, ← hterm]
          rw [hg] at hm
          exact hm
        · exact hc.votes n hnf v h1
      · intro _
        rw [t3, e3]
        refine ⟨List.nodup_cons.2 ⟨hnew, (hc.wf n hnf).1⟩, ?_⟩
        intro v hv
        rcases List.mem_cons.1 hv with h1 | h1
        · rw [h1]; exact hsrc
        · exact (hc.wf n hnf).2 v h1
      · intro hl
        rcases t5 with h1 | ⟨_, _, h1⟩
        · rw [h1, e4] at hl; cases hl
        · rw [t3]; exact h1
    · rw [hr] at hrole; cases hrole
  · exact localOK_of_benign c n _ _ hc (by simp) (observeTerm_benign _ _)

theorem onAppendEntries_benign (n : Nat) (st : Node) (src term prevIdx prevTerm : Nat)
    (entries : List LogEntry) :
    Benign st (onAppendEntries n st src term prevIdx prevTerm entries).1 := by
  have h1 := observeTerm_benign st term
  have h2 := benign_trans h1 (yieldToLeader_benign (observeTerm st term))
  unfold onAppendEntries
  simp only
  split
  · exact h1
  · split
    · exact benign_trans h2 (Or.inl ⟨rfl, rfl, Or.inr ⟨rfl, rfl⟩⟩)
    · exact h2

theorem onAppendEntries_no_grant (n : Nat) (st : Node) (src term prevIdx prevTerm : Nat)
    (entries : List LogEntry) (v d t : Nat) :
    grant v d t ∉ (onAppendEntries n st src term prevIdx prevTerm entries).2 := by
  unfold onAppendEntries
  simp only
  split
  · simp [grant]
  · split <;> simp [grant]

theorem localOK_onMessage (c : Cluster) (m : Message) (hc : Inv c) (hm : m ∈ c.network) :
    LocalOK c m.dst (onMessage c.size m.dst (c.nodes m.dst) m).1
      (onMessage c.size m.dst (c.nodes m.dst) m).2 := by
  cases m with
  | RequestVote src dst term li lt => exact localOK_onRequestVote c dst src term li lt hc
  | RequestVoteReply src dst term g => exact localOK_onRequestVoteReply c dst src term g hc hm
  | AppendEntries src dst term pi pt es =>
    exact localOK_of_benign c dst _ _ hc (onAppendEntries_no_grant _ _ _ _ _ _ _)
      (onAppendEntries_benign _ _ _ _ _ _ _)
  | AppendEntriesReply src dst term ok =>
    exact localOK_of_benign c dst _ _ hc (by simp [onMessage]) (observeTerm_benign _ _)

theorem localOK_onReplicate (c : Cluster) (n d k : Nat) (hc : Inv c) :
    LocalOK c n (onReplicate n (c.nodes n) d k).1 (onReplicate n (c.nodes n) d k).2 := by
  unfold onReplicate
  split
  · exact localOK_of_benign c n _ _ hc (by simp [grant, appendEntriesFor]) (benign_refl _)
  · exact localOK_of_benign c n _ _ hc (by simp) (benign_refl _)

theorem localOK_onClient (c : Cluster) (n : Nat) (command : String) (hc : Inv c) :
    LocalOK c n (onClient (c.nodes n) command).1 (onClient (c.nodes n) command).2 := by
  unfold onClient
  split
  · exact localOK_of_benign c n _ _ hc (by simp) (Or.inl ⟨rfl, rfl, Or.inr ⟨rfl, rfl⟩⟩)
  · exact localOK_of_benign c n _ _ hc (by simp) (benign_refl _)

theorem inv_init (N : Nat) : Inv (Cluster.init N) := by
  constructor <;> intros <;> simp_all [Cluster.init]

theorem inv_step (c : Cluster) (e : Event) (hc : Inv c) (he : e.isRestart = false) :
    Inv (c.step e) := by
  cases e with
  | timeout n =>
    simp only [Cluster.step]
    split
    · rename_i h; exact inv_update c n _ hc (localOK_onTimeout c n hc h)
    · exact hc
  | deliver m =>
    simp only [Cluster.step]
    split
    · rename_i h; exact inv_update c m.dst _ hc (localOK_onMessage c m hc h.1)
    · exact hc
  | replicate n d k =>
    simp only [Cluster.step]
    split
    · exact inv_update c n _ hc (localOK_onReplicate c n d k hc)
    · exact hc
  | client n command =>
    simp only [Cluster.step]
    split
    · exact inv_update c n _ hc (localOK_onClient c n command hc)
    · exact hc
  | restart n => cases he

theorem inv_foldl (events : List Event) : ∀ c : Cluster, Inv c →
    (∀ e ∈ events, e.isRestart = false) → Inv (events.foldl Cluster.step c) := by
  induction events with
  | nil => intro c hc _; exact hc
  | cons e rest ih =>
    intro c hc h
    exact ih (c.step e) (inv_step c e hc (h e (List.mem_cons_self _ _)))
      (fun e2 h2 => h e2 (List.mem_cons_of_mem _ h2))

theorem quorums_meet (N : Nat) (l1 l2 : List Nat) (h1 : l1.Nodup) (h2 : l2.Nodup)
    (b1 : ∀ v ∈ l1, v < N) (b2 : ∀ v ∈ l2, v < N)
    (q1 : N / 2 + 1 ≤ l1.length) (q2 : N / 2 + 1 ≤ l2.length) : ∃ v, v ∈ l1 ∧ v ∈ l2 := by
  by_contra hne
  have hdis : Disjoint l1.toFinset l2.toFinset := by
    rw [Finset.disjoint_left]
    intro v hv1 hv2
    exact hne ⟨v, List.mem_toFinset.1 hv1, List.mem_toFinset.1 hv2⟩
  have hsub : l1.toFinset ∪ l2.toFinset ⊆ Finset.range N := by
    intro v hv
    rcases Finset.mem_union.1 hv with h | h
    · exact Finset.mem_range.2 (b1 v (List.mem_toFinset.1 h))
    · exact Finset.mem_range.2 (b2 v (List.mem_toFinset.1 h))
  have hcard := Finset.card_le_card hsub
  rw [Finset.card_union_of_disjoint hdis, List.toFinset_card_of_nodup h1,
    List.toFinset_card_of_nodup h2, Finset.card_range] at hcard
  omega

theorem inv_election_safety (c : Cluster) (hc : Inv c) (a b : Nat)
    (ha : (c.nodes a).role = Role.Leader) (hb : (c.nodes b).role = Role.Leader)
    (ht : (c.nodes a).currentTerm = (c.nodes b).currentTerm) : a = b := by
  have hna : (c.nodes a).role ≠ Role.Follower := by rw [ha]; exact fun h => by cases h
  have hnb : (c.nodes b).role ≠ Role.Follower := by rw [hb]; exact fun h => by cases h
  obtain ⟨v, hva, hvb⟩ := quorums_meet c.size _ _ (hc.wf a hna).1 (hc.wf b hnb).1
    (hc.wf a hna).2 (hc.wf b hnb).2 (hc.quorum a ha) (hc.quorum b hb)
  rcases hc.votes a hna v hva with h1 | h1 <;> rcases hc.votes b hnb v hvb with h2 | h2
  · rw [← h1, ← h2]
  · subst h1
    have h3 := (hc.voted v b _ h2).2 ht
    rw [hc.self v hna] at h3
    exact Option.some.inj h3
  · subst h2
    have h3 := (hc.voted v a _ h1).2 ht.symm
    rw [hc.self v hnb] at h3
    exact (Option.some.inj h3).symm
  · rw [ht] at h1
    exact hc.unique v a b _ h1 h2



/-- C8 (counterexample): with three nodes, node 0 becomes Leader for term 1 on
the vote of node 1; node 1 restarts and, its vote forgotten, grants term 1 to
node 2 as well: nodes 0 and 2 both believe themselves Leader for term 1. -/
theorem C8_counterexample :
    ((Cluster.run 3 restartTrace).nodes 0).role = Role.Leader ∧
      ((Cluster.run 3 restartTrace).nodes 2).role = Role.Leader ∧
      ((Cluster.run 3 restartTrace).nodes 0).currentTerm = 1 ∧
      ((Cluster.run 3 restartTrace).nodes 2).currentTerm = 1 ∧
      (0 : Nat) ≠ 2 := by
  decide

/-- C8 (amended): election safety without restarts. In every state the cluster
reaches through timer expiries, message deliveries (late, repeated or never),
replication rounds and client commands, but no restart of a node, any two nodes
that believe themselves Leader for the same term are the same node. -/
theorem C8_election_safety_without_restart (N : Nat) (events : List Event)
    (hnr : ∀ e ∈ events, e.isRestart = false) (a b : Nat)
    (ha : ((Cluster.run N events).nodes a).role = Role.Leader)
    (hb : ((Cluster.run N events).nodes b).role = Role.Leader)
    (ht : ((Cluster.run N events).nodes a).currentTerm =
      ((Cluster.run N events).nodes b).currentTerm) : a = b :=
  inv_election_safety _ (inv_foldl events (Cluster.init N) (inv_init N) hnr) a b ha hb ht

/-- Witness for C8 (amended): after node 0 has won term 1 with the vote of node
1 and node 2 has stood for term 1 in vain, node 0 is the Leader of term 1 and
node 2 is still a Candidate. -/
theorem C8_election_safety_without_restart_witness :
    ((Cluster.run 3 electionTrace).nodes 0).role = Role.Leader ∧
      ((Cluster.run 3 electionTrace).nodes 2).role = Role.Candidate ∧
      ((Cluster.run 3 electionTrace).nodes 2).currentTerm = 1 ∧
      (0 : Nat) = 0 :=
  ⟨by decide, by decide, by decide,
    C8_election_safety_without_restart 3 electionTrace (by decide) 0 0
      (by decide) (by decide) rfl⟩

end Engine
